import Mathlib

/-!
Verification of the CANopenNode Object Dictionary interface (CO_ODinterface.c)
and Emergency subsystem (CO_Emergency.c) against their natural-language
specification.  C structures are shallowly embedded: byte buffers become
lists of naturals (each < 256), pointers become Option, machine integers
become Nat with explicit masking where overflow or truncation matters.
-/

/-- Return codes from OD access functions, enum ODR_t of CO_ODinterface.h.
Source values: PARTIAL = -1, OK = 0, then consecutive, except that the
source assigns ODR_DATA_DEV_STATE = 23 and also ODR_OD_MISSING = 23
(two enumerators with the same value), and ODR_NO_DATA = 25,
ODR_COUNT = 26. -/
inductive ODR where
  | PARTIAL
  | OK
  | OUT_OF_MEM
  | UNSUPP_ACCESS
  | WRITEONLY
  | READONLY
  | IDX_NOT_EXIST
  | NO_MAP
  | MAP_LEN
  | PAR_INCOMPAT
  | DEV_INCOMPAT
  | HW
  | TYPE_MISMATCH
  | DATA_LONG
  | DATA_SHORT
  | SUB_NOT_EXIST
  | INVALID_VALUE
  | VALUE_HIGH
  | VALUE_LOW
  | MAX_LESS_MIN
  | NO_RESOURCE
  | GENERAL
  | DATA_TRANSF
  | DATA_LOC_CTRL
  | DATA_DEV_STATE
  | OD_MISSING
  | NO_DATA
  deriving DecidableEq, Repr

/-- Numeric value of each ODR_t enumerator, exactly as assigned in
CO_ODinterface.h lines 132-192.  Note the collision: DATA_DEV_STATE and
OD_MISSING are both 23 in the source, and the value 24 is skipped. -/
def ODR.toInt : ODR → Int
  | .PARTIAL => -1
  | .OK => 0
  | .OUT_OF_MEM => 1
  | .UNSUPP_ACCESS => 2
  | .WRITEONLY => 3
  | .READONLY => 4
  | .IDX_NOT_EXIST => 5
  | .NO_MAP => 6
  | .MAP_LEN => 7
  | .PAR_INCOMPAT => 8
  | .DEV_INCOMPAT => 9
  | .HW => 10
  | .TYPE_MISMATCH => 11
  | .DATA_LONG => 12
  | .DATA_SHORT => 13
  | .SUB_NOT_EXIST => 14
  | .INVALID_VALUE => 15
  | .VALUE_HIGH => 16
  | .VALUE_LOW => 17
  | .MAX_LESS_MIN => 18
  | .NO_RESOURCE => 19
  | .GENERAL => 20
  | .DATA_TRANSF => 21
  | .DATA_LOC_CTRL => 22
  | .DATA_DEV_STATE => 23
  | .OD_MISSING => 23
  | .NO_DATA => 25

/-- ODR_COUNT from CO_ODinterface.h. -/
def ODR_COUNT : Int := 26

/-- Static table abortCodes of OD_getSDOabCode, CO_ODinterface.c
lines 304-331, in source order (index 0 up to index 25). -/
def abortCodes : List Nat :=
  [0x00000000, 0x05040005, 0x06010000, 0x06010001, 0x06010002, 0x06020000,
   0x06040041, 0x06040042, 0x06040043, 0x06040047, 0x06060000, 0x06070010,
   0x06070012, 0x06070013, 0x06090011, 0x06090030, 0x06090031, 0x06090032,
   0x06090036, 0x060A0023, 0x08000000, 0x08000020, 0x08000021, 0x08000022,
   0x08000023, 0x08000024]

/-- OD_getSDOabCode from CO_ODinterface.c lines 303-335: values below 0 or
at least ODR_COUNT map to the entry of ODR_DEV_INCOMPAT (index 9),
otherwise the table is indexed by the numeric enum value. -/
def OD_getSDOabCode (returnCode : Int) : Nat :=
  if returnCode < 0 ∨ ODR_COUNT ≤ returnCode then abortCodes.getD 9 0
  else abortCodes.getD returnCode.toNat 0

/-- OD stream, struct OD_stream_t of CO_ODinterface.h.  The data pointer is
modelled as an optional list of the bytes in memory starting at the pointed
address (none models NULL); dataLength and dataOffset as in the source.
The object pointer is not part of this model; handlers that use it receive
the emergency state explicitly. -/
structure OD_stream where
  data : Option (List Nat)
  dataLength : Nat
  dataOffset : Nat
  deriving DecidableEq, Repr

/-- OD_readOriginal from CO_ODinterface.c lines 31-77, for non-null stream,
buf and returnCode.  Result: the bytes copied into buf, the value stored in
returnCode, and the updated stream.  The number of bytes returned by the C
function equals the length of the first component. -/
def OD_readOriginal (stream : OD_stream) (count : Nat) :
    List Nat × ODR × OD_stream :=
  match stream.data with
  | none => ([], ODR.SUB_NOT_EXIST, stream)
  | some odData =>
    let dataLenToCopy := stream.dataLength
    if stream.dataOffset > 0 ∨ dataLenToCopy > count then
      if stream.dataOffset ≥ dataLenToCopy then
        ([], ODR.DEV_INCOMPAT, stream)
      else
        let len := dataLenToCopy - stream.dataOffset
        let od := odData.drop stream.dataOffset
        if len > count then
          (od.take count, ODR.PARTIAL,
            { stream with dataOffset := stream.dataOffset + count })
        else
          (od.take len, ODR.OK, { stream with dataOffset := 0 })
    else
      (odData.take dataLenToCopy, ODR.OK, stream)

/-- Memory update for memcpy(dest + off, src, src.length): bytes of dest
from position off on are replaced by src. -/
def writeBytes (dest : List Nat) (off : Nat) (src : List Nat) : List Nat :=
  dest.take off ++ src ++ dest.drop (off + src.length)

/-- OD_writeOriginal from CO_ODinterface.c lines 80-134, for non-null
stream, buf and returnCode.  The buffer content is buf (count bytes).
Result: stored returnCode, updated stream (both dataOffset and the
underlying memory). -/
def OD_writeOriginal (stream : OD_stream) (buf : List Nat) (count : Nat) :
    ODR × OD_stream :=
  match stream.data with
  | none => (ODR.SUB_NOT_EXIST, stream)
  | some odData =>
    if stream.dataOffset > 0 ∨ stream.dataLength > count then
      if stream.dataOffset ≥ stream.dataLength then
        (ODR.DEV_INCOMPAT, stream)
      else
        let len := stream.dataLength - stream.dataOffset
        if len > count then
          (ODR.PARTIAL,
            { stream with
                data := some (writeBytes odData stream.dataOffset
                              (buf.take count)),
                dataOffset := stream.dataOffset + count })
        else
          if len < count then
            (ODR.DATA_LONG, { stream with dataOffset := 0 })
          else
            (ODR.OK,
              { stream with
                  data := some (writeBytes odData stream.dataOffset
                                (buf.take len)),
                  dataOffset := 0 })
    else
      if stream.dataLength < count then (ODR.DATA_LONG, stream) else
      (ODR.OK,
        { stream with
            data := some (writeBytes odData 0 (buf.take stream.dataLength)) })

/-- Sequence of reads: perform OD_readOriginal with each buffer size of the
list in turn, concatenating the returned bytes, until a call returns OK.
Returns none when the counts are exhausted before OK, or when a call fails
with an error code. -/
def readRun (stream : OD_stream) : List Nat → Option (List Nat)
  | [] => none
  | c :: cs =>
    match OD_readOriginal stream c with
    | (buf, ODR.OK, _) => some buf
    | (buf, ODR.PARTIAL, stream1) => (readRun stream1 cs).map (buf ++ ·)
    | _ => none

example : OD_readOriginal ⟨some [0,1,2,3,4,5,6,7,8,9], 10, 0⟩ 4 =
    ([0,1,2,3], ODR.PARTIAL, ⟨some [0,1,2,3,4,5,6,7,8,9], 10, 4⟩) := by
  decide

example : readRun ⟨some [0,1,2,3,4,5,6,7,8,9], 10, 0⟩ [4,4,4] =
    some [0,1,2,3,4,5,6,7,8,9] := by decide

example : OD_readOriginal ⟨some [], 0, 0⟩ 4 = ([], ODR.OK, ⟨some [], 0, 0⟩)
    := by decide

/-- Extension block OD_obj_extended_t of CO_ODinterface.h: application
object plus read/write overrides (presence of the hooks is what the claims
depend on; the hooks themselves are application code). -/
structure OD_obj_extended where
  hasObject : Bool
  hasRead : Bool
  hasWrite : Bool
  deriving DecidableEq, Repr

/-- OD_obj_var_t of CO_ODinterface.h: data pointer (modelled as the byte
list in memory at that address, none for NULL), attribute bitfield, data
length, and the optional extension pointer. -/
structure OD_obj_var where
  data : Option (List Nat)
  attr : Nat
  dataLength : Nat
  ext : Option OD_obj_extended
  deriving DecidableEq, Repr

/-- OD_obj_array_t of CO_ODinterface.h: a var-shaped base for sub-index 0
plus the array data pointer, element attribute, element data length and
element sizeof (stride). -/
structure OD_obj_array where
  base : OD_obj_var
  data : Option (List Nat)
  attr : Nat
  dataElementLength : Nat
  dataElementSizeof : Nat
  deriving DecidableEq, Repr

/-- OD_obj_record_t of CO_ODinterface.h: a var-shaped base together with
the sub-index this element answers to. -/
structure OD_obj_record where
  base : OD_obj_var
  subIndex : Nat
  deriving DecidableEq, Repr

/-- Payload pointed to by entry.odObject, discriminated in the source by
odObjectType masked with ODT_TYPE_MASK (ODT_VAR, ODT_ARR, ODT_REC). -/
inductive OD_object where
  | var (v : OD_obj_var)
  | array (a : OD_obj_array)
  | record (rs : List OD_obj_record)
  deriving DecidableEq, Repr

/-- OD_entry_t of CO_ODinterface.h.  The field extendedTag models
odObjectType masked with ODT_EXTENSION_MASK being non-zero; odObject none
models a NULL payload pointer. -/
structure OD_entry where
  index : Nat
  subEntriesCount : Nat
  extendedTag : Bool
  odObject : Option OD_object
  deriving DecidableEq, Repr

/-- Extension pointer read through the var-shaped view of the payload
(odv->ext in OD_getSub): for records this reads element 0 of the record
array, which the source assumes to exist. -/
def OD_object.headExt : OD_object → Option OD_obj_extended
  | .var v => v.ext
  | .array a => a.base.ext
  | .record rs => match rs.head? with
    | none => none
    | some r => r.base.ext

/-- OD_getSub from CO_ODinterface.c lines 200-300, for non-null io.
Result: the ODR_t return value and, on success, the initialized stream
(data, dataLength, dataOffset) together with the selected attribute and a
flag telling whether original IO was bound (extension absent or odOrig).
The argument is an optional entry, none modelling a NULL entry pointer. -/
def OD_getSub (entry : Option OD_entry) (subIndex : Nat) (odOrig : Bool) :
    ODR × Option (OD_stream × Nat × Bool) :=
  match entry with
  | none => (ODR.IDX_NOT_EXIST, none)
  | some e =>
    match e.odObject with
    | none => (ODR.IDX_NOT_EXIST, none)
    | some obj =>
      let odExt := obj.headExt
      if e.extendedTag ∧ odExt = none then (ODR.DEV_INCOMPAT, none)
      else
        let bound : Option (Option (List Nat) × Nat × Nat) :=
          match obj with
          | .var v =>
            if subIndex > 0 then none
            else some (v.data, v.dataLength, v.attr)
          | .array a =>
            if subIndex ≥ e.subEntriesCount then none
            else if subIndex = 0 then
              some (a.base.data, 1, a.base.attr)
            else
              let data := match a.data with
                | none => none
                | some d => some (d.drop (a.dataElementSizeof * (subIndex - 1)))
              some (data, a.dataElementLength, a.attr)
          | .record rs =>
            match (rs.take e.subEntriesCount).find?
                (fun r => r.subIndex = subIndex) with
            | none => none
            | some r => some (r.base.data, r.base.dataLength, r.base.attr)
        match bound with
        | none => (ODR.SUB_NOT_EXIST, none)
        | some (data, len, attr) =>
          let usesOriginalIO := odExt = none ∨ odOrig
          (ODR.OK, some (⟨data, len, 0⟩, attr, usesOriginalIO))

example :
    OD_getSub (some ⟨0x1000, 1, false, some (.var ⟨some [1,2,3,4], 1, 4, none⟩)⟩)
      1 false = (ODR.SUB_NOT_EXIST, none) := by decide

example :
    OD_getSub (some ⟨0x1000, 1, true, some (.var ⟨some [1,2,3,4], 1, 4, none⟩)⟩)
      0 false = (ODR.DEV_INCOMPAT, none) := by decide

/-- CO_SWAP_16 from CO_driver.h, which is not under src.  Modelled from the
spec: section 6 fixes the wire and storage order as little-endian, so on
the modelled target the swap macros are the identity. -/
def CO_SWAP_16 (x : Nat) : Nat := x

/-- CO_SWAP_32 from CO_driver.h, which is not under src.  Modelled from the
spec: little-endian target, identity. -/
def CO_SWAP_32 (x : Nat) : Nat := x

/-- CO_CAN_ID_EMERGENCY from CO_driver.h, which is not under src.  Modelled
from the spec: section 4.10 names the default emergency CAN base id 0x80. -/
def CO_CAN_ID_EMERGENCY : Nat := 0x80

/-- Little-endian byte serialization of a 32-bit word, as produced by
memcpy of a uint32_t on the modelled little-endian target. -/
def bytesOfUInt32LE (x : Nat) : List Nat :=
  [x % 256, x / 256 % 256, x / 2 ^ 16 % 256, x / 2 ^ 24 % 256]

/-- CO_getUint32 from CO_driver.h, which is not under src.  Modelled from
the spec: multi-byte values use little-endian order (section 4.5). -/
def CO_getUint32 (buf : List Nat) : Nat :=
  buf.getD 0 0 + 256 * buf.getD 1 0 + 2 ^ 16 * buf.getD 2 0
    + 2 ^ 24 * buf.getD 3 0

/-- Compile-time configuration of CO_Emergency.c.  The two sizes are the
macros CO_CONFIG_EM_ERR_STATUS_BITS_COUNT (48..256, divisible by 8) and
CO_CONFIG_EM_BUFFER_SIZE (1..254, the CAP).  The remaining fields are
constants from CO_Emergency.h, which is not under src; they are carried as
parameters so no concrete value needs to be invented. -/
structure EMConfig where
  errStatusBitsCount : Nat
  bufferSize : Nat
  wrongErrorReportBit : Nat
  emcSoftwareInternal : Nat
  emcNoError : Nat
  emcGeneric : Nat
  emergencyBufferFullBit : Nat
  deriving DecidableEq, Repr

/-- Emergency object CO_EM_t state relevant to the claims: the error status
bitmap as a list of bytes, the fifo ring of CAP+1 slots each holding the
pair of 32-bit words written by CO_error, the ring pointers, the saturating
history count, the overflow state machine, the inhibit timing, and the
producer configuration. -/
structure CO_EM where
  errorStatusBits : List Nat
  fifo : List (Nat × Nat)
  fifoWrPtr : Nat
  fifoPpPtr : Nat
  fifoCount : Nat
  fifoOverflow : Nat
  inhibitEmTime_us : Nat
  inhibitEmTimer : Nat
  producerEnabled : Bool
  producerCanId : Nat
  nodeId : Nat
  deriving DecidableEq, Repr

/-- State of one bit of the error status bitmap: byte errorBit / 8 masked
with 1 shifted by errorBit mod 8, non-zero means raised. -/
def emBitGet (em : CO_EM) (errorBit : Nat) : Bool :=
  (em.errorStatusBits.getD (errorBit / 8) 0) &&& (2 ^ (errorBit % 8)) ≠ 0

/-- CO_error from CO_Emergency.c lines 686-763, with both the PRODUCER and
the HISTORY features compiled in (both fifo words are written, the count is
maintained).  Arguments errorBit, errorCode, infoCode stand for uint8_t,
uint16_t, uint32_t parameters and are masked accordingly where the source
relies on the machine type. -/
def CO_error (cfg : EMConfig) (em : CO_EM) (setError : Bool)
    (errorBit errorCode infoCode : Nat) : CO_EM :=
  let index0 := errorBit % 256 / 8
  let redirect := index0 ≥ cfg.errStatusBitsCount / 8
  let index := if redirect then cfg.wrongErrorReportBit % 256 / 8 else index0
  let bitmask := if redirect then 2 ^ (cfg.wrongErrorReportBit % 8)
    else 2 ^ (errorBit % 8)
  let errorCode1 := if redirect then cfg.emcSoftwareInternal
    else errorCode % 2 ^ 16
  let infoCode1 := if redirect then errorBit % 256 else infoCode % 2 ^ 32
  let b := em.errorStatusBits.getD index 0
  let masked := b &&& bitmask
  if setError ∧ masked ≠ 0 then em
  else if ¬setError ∧ masked = 0 then em
  else
    let errorCode2 := if setError then errorCode1 else cfg.emcNoError % 2 ^ 16
    let errMsg := ((errorBit % 256) <<< 24) ||| CO_SWAP_16 errorCode2
    let infoCodeSwapped := CO_SWAP_32 infoCode1
    let newBits := em.errorStatusBits.set index
      (if setError then b ||| bitmask else b &&& (255 ^^^ bitmask))
    let fifoWrPtr := em.fifoWrPtr
    let fifoWrPtrNext0 := fifoWrPtr + 1
    let fifoWrPtrNext := if fifoWrPtrNext0 ≥ cfg.bufferSize + 1 then 0
      else fifoWrPtrNext0
    if fifoWrPtrNext = em.fifoPpPtr then
      { em with errorStatusBits := newBits, fifoOverflow := 1 }
    else
      { em with
          errorStatusBits := newBits,
          fifo := em.fifo.set fifoWrPtr (errMsg, infoCodeSwapped),
          fifoWrPtr := fifoWrPtrNext,
          fifoCount := if em.fifoCount < cfg.bufferSize then em.fifoCount + 1
            else em.fifoCount }

/-- OD_write_statusBits from CO_Emergency.c lines 286-312, for non-null
stream, buf and returnCode.  Result: the stored returnCode, the updated
emergency object, the updated stream, and the number of bytes written. -/
def OD_write_statusBits (cfg : EMConfig) (em : CO_EM) (stream : OD_stream)
    (subIndex : Nat) (buf : List Nat) (count : Nat) :
    ODR × CO_EM × OD_stream × Nat :=
  if subIndex ≠ 0 then (ODR.DEV_INCOMPAT, em, stream, 0)
  else
    let countWrite0 := cfg.errStatusBitsCount / 8
    let countWrite1 := if countWrite0 > count then count else countWrite0
    let sizes : Nat × OD_stream :=
      if stream.dataLength ≠ 0 ∧ countWrite1 > stream.dataLength then
        (stream.dataLength, stream)
      else (countWrite1, { stream with dataLength := countWrite1 })
    let countWrite := sizes.1
    (ODR.OK,
     { em with errorStatusBits :=
         writeBytes em.errorStatusBits 0 (buf.take countWrite) },
     sizes.2, countWrite)

/-- OD_read_statusBits from CO_Emergency.c lines 258-284, for non-null
stream, buf and returnCode.  Result: stored returnCode, bytes copied into
buf, updated stream. -/
def OD_read_statusBits (cfg : EMConfig) (em : CO_EM) (stream : OD_stream)
    (subIndex : Nat) (count : Nat) : ODR × List Nat × OD_stream :=
  if subIndex ≠ 0 then (ODR.DEV_INCOMPAT, [], stream)
  else
    let countRead0 := cfg.errStatusBitsCount / 8
    let countRead1 := if countRead0 > count then count else countRead0
    let sizes : Nat × OD_stream :=
      if stream.dataLength ≠ 0 ∧ countRead1 > stream.dataLength then
        (stream.dataLength, stream)
      else (countRead1, { stream with dataLength := countRead1 })
    (ODR.OK, em.errorStatusBits.take sizes.1, sizes.2)

/-- OD_read_1003 from CO_Emergency.c lines 190-224, for non-null stream,
buf and returnCode.  Result: stored returnCode, bytes copied into buf, and
the value returned by the C function (bytes read). -/
def OD_read_1003 (cfg : EMConfig) (em : CO_EM) (subIndex : Nat)
    (count : Nat) : ODR × List Nat × Nat :=
  if count < 4 then (ODR.DEV_INCOMPAT, [], 0)
  else if subIndex = 0 then (ODR.OK, [em.fifoCount % 256], 1)
  else if subIndex ≤ em.fifoCount then
    if (em.fifoWrPtr : Int) - subIndex < 0 then
      let index := ((em.fifoWrPtr : Int) - subIndex
        + (cfg.bufferSize + 1)).toNat
      (ODR.OK, bytesOfUInt32LE (em.fifo.getD index (0, 0)).1, 4)
    else if (em.fifoWrPtr : Int) - subIndex ≥ cfg.bufferSize + 1 then
      (ODR.DEV_INCOMPAT, [], 0)
    else
      let index := ((em.fifoWrPtr : Int) - subIndex).toNat
      (ODR.OK, bytesOfUInt32LE (em.fifo.getD index (0, 0)).1, 4)
  else (ODR.NO_DATA, [], 0)

/-- OD_write_1014 from CO_Emergency.c lines 83-128, for non-null stream,
buf and returnCode, in the PROD_CONFIGURABLE build.  The CAN transmit
buffer reconfiguration is external driver state and not modelled.  Result:
stored returnCode, updated emergency object, updated stream. -/
def OD_write_1014 (em : CO_EM) (stream : OD_stream) (subIndex : Nat)
    (buf : List Nat) (count : Nat) : ODR × CO_EM × OD_stream :=
  if subIndex ≠ 0 then (ODR.DEV_INCOMPAT, em, stream)
  else
    let COB_IDEmergency32 := CO_getUint32 buf
    let newCanId := COB_IDEmergency32 &&& 0x7FF
    let curCanId := if em.producerCanId = CO_CAN_ID_EMERGENCY then
      CO_CAN_ID_EMERGENCY + em.nodeId else em.producerCanId
    let newEnabled := (COB_IDEmergency32 &&& 0x80000000) = 0 ∧ newCanId ≠ 0
    if (COB_IDEmergency32 &&& 0x7FFFF800) ≠ 0
        ∨ (em.producerEnabled ∧ newEnabled ∧ newCanId ≠ curCanId) then
      (ODR.INVALID_VALUE, em, stream)
    else
      let em1 := { em with
        producerEnabled := newEnabled,
        producerCanId := if newCanId = CO_CAN_ID_EMERGENCY + em.nodeId then
          CO_CAN_ID_EMERGENCY else newCanId }
      let res := OD_writeOriginal stream buf count
      (res.1, em1, res.2)

/-- CO_EM_process from CO_Emergency.c lines 538-682, with PRODUCER,
PROD_INHIBIT, HISTORY compiled in and no consumer callback, restricted to
states where CANdevTx CANerrorStatus equals the stored CANerrorStatusOld,
so the driver-error monitoring block of lines 546-579 performs no call.
The errorRegister byte recomputed in lines 582-605 from the
CO_CONFIG_ERR_CONDITION macros (platform configuration, not under src) is
passed in as an argument, as is the bufferFull flag of the CAN transmit
buffer.  CO_errorReport and CO_errorReset are the inline wrappers of
CO_Emergency.h (not under src) around CO_error with setError true and
false.  Result: updated emergency object, and the 8 data bytes handed to
CO_CANsend when a transmission was requested. -/
def CO_EM_process (cfg : EMConfig) (em : CO_EM)
    (NMTisPreOrOperational : Bool) (timeDifference_us : Nat)
    (errorRegister : Nat) (bufferFull : Bool) :
    CO_EM × Option (List Nat) :=
  let inhibitEmTimer := if em.inhibitEmTimer < em.inhibitEmTime_us then
    em.inhibitEmTimer + timeDifference_us else em.inhibitEmTimer
  let fifoPpPtr := em.fifoPpPtr
  if fifoPpPtr ≠ em.fifoWrPtr ∧ inhibitEmTimer ≥ em.inhibitEmTime_us
      ∧ ¬bufferFull then
    let slot := em.fifo.getD fifoPpPtr (0, 0)
    let msg := slot.1 ||| ((errorRegister % 256) <<< 16)
    let frame := if NMTisPreOrOperational then
      some (bytesOfUInt32LE msg ++ bytesOfUInt32LE slot.2) else none
    let fifoPpPtrNext := if fifoPpPtr + 1 < cfg.bufferSize + 1 then
      fifoPpPtr + 1 else 0
    let em1 := { em with
      inhibitEmTimer := 0,
      fifo := em.fifo.set fifoPpPtr (msg, slot.2),
      fifoPpPtr := fifoPpPtrNext }
    let em2 :=
      if em1.fifoOverflow = 1 then
        CO_error cfg { em1 with fifoOverflow := 2 } true
          cfg.emergencyBufferFullBit cfg.emcGeneric 0
      else if em1.fifoOverflow = 2 ∧ em1.fifoPpPtr = em1.fifoWrPtr then
        CO_error cfg { em1 with fifoOverflow := 0 } false
          cfg.emergencyBufferFullBit 0 0
      else em1
    (em2, frame)
  else
    ({ em with inhibitEmTimer := inhibitEmTimer }, none)

example :
    CO_EM_process ⟨48, 6, 46, 0x6180, 0, 0x1000, 47⟩
      (CO_error ⟨48, 6, 46, 0x6180, 0, 0x1000, 47⟩
        ⟨List.replicate 6 0, List.replicate 7 (0, 0), 0, 0, 0, 0, 0, 0,
         true, 0x80, 5⟩ true 0x11 0x5000 0xDEADBEEF)
      true 0 1 false
    = (⟨[0, 0, 2, 0, 0, 0],
        (0x11015000, 0xDEADBEEF) :: List.replicate 6 (0, 0),
        1, 1, 1, 0, 0, 0, true, 0x80, 5⟩,
       some [0x00, 0x50, 0x01, 0x11, 0xEF, 0xBE, 0xAD, 0xDE]) := by decide

theorem OD_readOriginal_partial_eq (d : List Nat) (len off c : Nat)
    (h : c < len - off) :
    OD_readOriginal ⟨some d, len, off⟩ c =
      ((d.drop off).take c, ODR.PARTIAL, ⟨some d, len, off + c⟩) := by
  have h1 : off > 0 ∨ len > c := Or.inr (by omega)
  have h2 : ¬ off ≥ len := by omega
  have h3 : len - off > c := by omega
  simp only [OD_readOriginal, if_pos h1, if_neg h2, if_pos h3]

theorem OD_readOriginal_ok_eq (d : List Nat) (len off c : Nat)
    (hoff : off < len) (hle : len - off ≤ c) :
    OD_readOriginal ⟨some d, len, off⟩ c =
      ((d.drop off).take (len - off), ODR.OK, ⟨some d, len, 0⟩) := by
  have h2 : ¬ off ≥ len := by omega
  have h3 : ¬ len - off > c := by omega
  by_cases h1 : off > 0 ∨ len > c
  · simp only [OD_readOriginal, if_pos h1, if_neg h2, if_neg h3]
  · have hoff0 : off = 0 := by omega
    subst hoff0
    simp only [OD_readOriginal, if_neg h1, List.drop_zero, Nat.sub_zero]

theorem readRun_concat (d : List Nat) (len : Nat) (counts : List Nat) :
    ∀ (off : Nat), off < len →
      ∀ out, readRun ⟨some d, len, off⟩ counts = some out →
        out = (d.drop off).take (len - off) := by
  induction counts with
  | nil =>
    intro off _ out h
    simp [readRun] at h
  | cons c cs ih =>
    intro off hoff out h
    by_cases hc : c < len - off
    · rw [readRun, OD_readOriginal_partial_eq d len off c hc] at h
      simp only [Option.map_eq_some'] at h
      obtain ⟨rest, hrest, hout⟩ := h
      have hoff2 : off + c < len := by omega
      have hr := ih (off + c) hoff2 rest hrest
      subst hout
      rw [hr, show len - off = c + (len - (off + c)) from by omega,
        List.take_add, List.drop_drop]
    · rw [readRun, OD_readOriginal_ok_eq d len off c hoff (by omega)] at h
      exact (Option.some_inj.mp h).symm

/-- C1: for a stream with a non-null data pointer whose dataOffset marks
the bytes already transferred of an in-progress transfer (dataOffset below
dataLength, cell memory at least dataLength bytes), OD_readOriginal with a
buffer of size count copies exactly count bytes from data + dataOffset and
returns PARTIAL with dataOffset advanced by count when remaining bytes
exceed count; otherwise it copies the remaining bytes, resets dataOffset
to 0 and returns OK; and over any sequence of such calls that ends with OK
the concatenation of the returned bytes is exactly the first dataLength
bytes of the cell, in order, exactly once. -/
theorem C1_read_partial_transfer (stream : OD_stream) (d : List Nat)
    (count : Nat) (hd : stream.data = some d)
    (hlen : stream.dataLength ≤ d.length)
    (hoff : stream.dataOffset < stream.dataLength) :
    (count < stream.dataLength - stream.dataOffset →
      OD_readOriginal stream count =
        ((d.drop stream.dataOffset).take count, ODR.PARTIAL,
          ⟨some d, stream.dataLength, stream.dataOffset + count⟩)
      ∧ ((d.drop stream.dataOffset).take count).length = count)
    ∧ (stream.dataLength - stream.dataOffset ≤ count →
      OD_readOriginal stream count =
        ((d.drop stream.dataOffset).take
            (stream.dataLength - stream.dataOffset),
          ODR.OK, ⟨some d, stream.dataLength, 0⟩)
      ∧ ((d.drop stream.dataOffset).take
          (stream.dataLength - stream.dataOffset)).length
          = stream.dataLength - stream.dataOffset)
    ∧ (∀ counts out, stream.dataOffset = 0 →
        readRun stream counts = some out →
        out = d.take stream.dataLength) := by
  obtain ⟨dat, len, off⟩ := stream
  simp only at hd hlen hoff ⊢
  subst hd
  refine ⟨fun hc => ⟨OD_readOriginal_partial_eq d len off count hc, ?_⟩,
          fun hc => ⟨OD_readOriginal_ok_eq d len off count hoff hc, ?_⟩,
          fun counts out hoff0 hrun => ?_⟩
  · simp only [List.length_take, List.length_drop]
    omega
  · simp only [List.length_take, List.length_drop]
    omega
  · subst hoff0
    have := readRun_concat d len counts 0 hoff out hrun
    simpa using this

/-- Witness for C1 at spec scenario 2: a 10-byte cell read through a
4-byte buffer. -/
theorem C1_read_partial_transfer_witness :
    OD_readOriginal ⟨some [0,1,2,3,4,5,6,7,8,9], 10, 4⟩ 4 =
      (([0,1,2,3,4,5,6,7,8,9].drop 4).take 4, ODR.PARTIAL,
        ⟨some [0,1,2,3,4,5,6,7,8,9], 10, 4 + 4⟩) :=
  ((C1_read_partial_transfer ⟨some [0,1,2,3,4,5,6,7,8,9], 10, 4⟩
      [0,1,2,3,4,5,6,7,8,9] 4 rfl (by decide) (by decide)).1 (by decide)).1

/-- C8 as stated is false at a zero-length cell: with data non-null,
dataLength 0 and dataOffset 0 (so dataOffset equals dataLength) the read
returns OK with zero bytes, not DEV_INCOMPAT. -/
theorem C8_counterexample :
    OD_readOriginal ⟨some [], 0, 0⟩ 4 = ([], ODR.OK, ⟨some [], 0, 0⟩)
    ∧ ODR.OK ≠ ODR.DEV_INCOMPAT := by decide

/-- C8 amended: a null data pointer fails SUB_NOT_EXIST with no bytes; a
stream with dataOffset at or past dataLength fails DEV_INCOMPAT with no
bytes whenever dataOffset is positive; but a cell with dataLength 0 and
dataOffset 0 succeeds with OK and zero bytes. -/
theorem C8_read_error_paths (stream : OD_stream) (count : Nat) :
    (stream.data = none →
      OD_readOriginal stream count = ([], ODR.SUB_NOT_EXIST, stream))
    ∧ (∀ d, stream.data = some d → 0 < stream.dataOffset →
        stream.dataLength ≤ stream.dataOffset →
        OD_readOriginal stream count = ([], ODR.DEV_INCOMPAT, stream))
    ∧ (∀ d, stream.data = some d → stream.dataOffset = 0 →
        stream.dataLength = 0 →
        OD_readOriginal stream count = ([], ODR.OK, stream)) := by
  obtain ⟨dat, len, off⟩ := stream
  refine ⟨fun h => ?_, fun d hd h1 h2 => ?_, fun d hd h1 h2 => ?_⟩
  · simp only at h
    subst h
    simp [OD_readOriginal]
  · simp only at hd h1 h2
    subst hd
    have ha : off > 0 ∨ len > count ∨ ¬(off > 0 ∨ len > count) := by tauto
    by_cases hb : off > 0 ∨ len > count
    · simp only [OD_readOriginal, if_pos hb, if_pos (show off ≥ len by omega)]
    · omega
  · simp only at hd h1 h2
    subst hd; subst h1; subst h2
    simp [OD_readOriginal]

/-- Witness for C8 amended: concrete null-pointer and stale-offset
streams. -/
theorem C8_read_error_paths_witness :
    OD_readOriginal ⟨none, 4, 0⟩ 2 = ([], ODR.SUB_NOT_EXIST, ⟨none, 4, 0⟩)
    ∧ OD_readOriginal ⟨some [1,2,3], 3, 3⟩ 2 =
        ([], ODR.DEV_INCOMPAT, ⟨some [1,2,3], 3, 3⟩)
    ∧ OD_readOriginal ⟨some [], 0, 0⟩ 7 = ([], ODR.OK, ⟨some [], 0, 0⟩) :=
  ⟨(C8_read_error_paths ⟨none, 4, 0⟩ 2).1 rfl,
   (C8_read_error_paths ⟨some [1,2,3], 3, 3⟩ 2).2.1 [1,2,3] rfl
     (by decide) (by decide),
   (C8_read_error_paths ⟨some [], 0, 0⟩ 7).2.2 [] rfl rfl rfl⟩

/-- C3: in the source, ODR_OD_MISSING is declared with value 23, the same
value as ODR_DATA_DEV_STATE, although its own documentation in
CO_ODinterface.h says SDO abort 0x08000023; OD_getSDOabCode therefore maps
OD_MISSING to 0x08000022 (the DATA_DEV_STATE entry), not to the documented
0x08000023, which sits unreachable at table index 24; NO_DATA (25) does
map to 0x08000024, and out-of-range values map to DEV_INCOMPAT
0x06040047. -/
theorem C3_abort_code_od_missing :
    ODR.OD_MISSING.toInt = ODR.DATA_DEV_STATE.toInt
    ∧ OD_getSDOabCode ODR.OD_MISSING.toInt = 0x08000022
    ∧ OD_getSDOabCode ODR.OD_MISSING.toInt ≠ 0x08000023
    ∧ OD_getSDOabCode ODR.NO_DATA.toInt = 0x08000024
    ∧ OD_getSDOabCode 24 = 0x08000023
    ∧ OD_getSDOabCode 26 = 0x06040047
    ∧ OD_getSDOabCode (-1) = 0x06040047
    ∧ OD_getSDOabCode ODR.PARTIAL.toInt = 0x06040047 := by decide

/-- C10: the history read handler rejects any buffer smaller than 4 bytes
with DEV_INCOMPAT and zero bytes transferred, even for sub-index 0, whose
successful read returns a single byte holding the history count. -/
theorem C10_read_1003_min_buffer (cfg : EMConfig) (em : CO_EM)
    (subIndex count : Nat) :
    (count < 4 →
      OD_read_1003 cfg em subIndex count = (ODR.DEV_INCOMPAT, [], 0))
    ∧ (4 ≤ count → em.fifoCount < 256 →
      OD_read_1003 cfg em 0 count = (ODR.OK, [em.fifoCount], 1)) := by
  constructor
  · intro h
    simp [OD_read_1003, h]
  · intro h hcnt
    simp only [OD_read_1003, if_neg (show ¬ count < 4 by omega), if_pos rfl]
    simp [Nat.mod_eq_of_lt hcnt]

/-- Witness for C10: a 3-byte buffer is rejected, a 4-byte buffer reads
the count byte. -/
theorem C10_read_1003_min_buffer_witness :
    OD_read_1003 ⟨48, 6, 46, 0x6180, 0, 0x1000, 47⟩
      ⟨List.replicate 6 0, List.replicate 7 (0, 0), 2, 0, 2, 0, 0, 0,
        true, 0x80, 5⟩ 0 3 = (ODR.DEV_INCOMPAT, [], 0)
    ∧ OD_read_1003 ⟨48, 6, 46, 0x6180, 0, 0x1000, 47⟩
      ⟨List.replicate 6 0, List.replicate 7 (0, 0), 2, 0, 2, 0, 0, 0,
        true, 0x80, 5⟩ 0 4 = (ODR.OK, [2], 1) :=
  ⟨(C10_read_1003_min_buffer _ _ 0 3).1 (by decide),
   (C10_read_1003_min_buffer _ _ 0 4).2 (by decide) (by decide)⟩

theorem OD_getSub_success_offset (entry : Option OD_entry) (subIndex : Nat)
    (odOrig : Bool) (c : ODR) (s : OD_stream) (a : Nat) (b : Bool)
    (h : OD_getSub entry subIndex odOrig = (c, some (s, a, b))) :
    s.dataOffset = 0 := by
  rcases entry with _ | e
  · simp [OD_getSub] at h
  · simp only [OD_getSub] at h
    rcases hobj : e.odObject with _ | obj <;> rw [hobj] at h
    · simp at h
    · repeat' split at h <;> simp_all
      all_goals rw [← h.2.1]

/-- C9: sub-entry resolution fails IDX_NOT_EXIST when the entry or its
payload pointer is null, DEV_INCOMPAT when the entry is tagged extended
but carries no extension block, SUB_NOT_EXIST when a VAR is addressed
with positive sub-index, an ARRAY at or beyond subEntriesCount, or a
RECORD whose scanned elements carry no matching sub-index; and every
successful resolution initializes the stream with dataOffset 0. -/
theorem C9_getSub_resolution (subIndex : Nat) (odOrig : Bool) :
    (OD_getSub none subIndex odOrig = (ODR.IDX_NOT_EXIST, none))
    ∧ (∀ e : OD_entry, e.odObject = none →
        OD_getSub (some e) subIndex odOrig = (ODR.IDX_NOT_EXIST, none))
    ∧ (∀ e obj, e.odObject = some obj → e.extendedTag = true →
        obj.headExt = none →
        OD_getSub (some e) subIndex odOrig = (ODR.DEV_INCOMPAT, none))
    ∧ (∀ e v, e.odObject = some (.var v) →
        ¬(e.extendedTag = true ∧ v.ext = none) → 0 < subIndex →
        OD_getSub (some e) subIndex odOrig = (ODR.SUB_NOT_EXIST, none))
    ∧ (∀ e a, e.odObject = some (.array a) →
        ¬(e.extendedTag = true ∧ a.base.ext = none) →
        e.subEntriesCount ≤ subIndex →
        OD_getSub (some e) subIndex odOrig = (ODR.SUB_NOT_EXIST, none))
    ∧ (∀ e rs, e.odObject = some (.record rs) →
        ¬(e.extendedTag = true
            ∧ (OD_object.record rs).headExt = none) →
        (∀ r ∈ rs.take e.subEntriesCount, r.subIndex ≠ subIndex) →
        OD_getSub (some e) subIndex odOrig = (ODR.SUB_NOT_EXIST, none))
    ∧ (∀ entry c s a b,
        OD_getSub entry subIndex odOrig = (c, some (s, a, b)) →
        s.dataOffset = 0) := by
  refine ⟨by simp [OD_getSub], fun e h => by simp [OD_getSub, h],
    fun e obj hobj htag hext => ?_, fun e v hobj hne hpos => ?_,
    fun e a hobj hne hge => ?_, fun e rs hobj hne hall => ?_,
    fun entry c s a b h => OD_getSub_success_offset entry subIndex odOrig
      c s a b h⟩
  · simp [OD_getSub, hobj, htag, hext]
  · have hext : ¬(e.extendedTag ∧ (OD_object.var v).headExt = none) := by
      simpa [OD_object.headExt] using hne
    simp [OD_getSub, hobj, hext, hpos, Nat.pos_iff_ne_zero.mp hpos]
  · have hext : ¬(e.extendedTag ∧ (OD_object.array a).headExt = none) := by
      simpa [OD_object.headExt] using hne
    simp [OD_getSub, hobj, hext, hge]
  · have hext : ¬(e.extendedTag ∧ (OD_object.record rs).headExt = none) := by
      simpa using hne
    have hfind : (rs.take e.subEntriesCount).find?
        (fun r => r.subIndex = subIndex) = none := by
      rw [List.find?_eq_none]
      intro r hr
      simpa using hall r hr
    simp [OD_getSub, hobj, hext, hfind]

/-- Witness for C9 at concrete entries of each shape. -/
theorem C9_getSub_resolution_witness :
    OD_getSub none 0 false = (ODR.IDX_NOT_EXIST, none)
    ∧ OD_getSub (some ⟨0x1000, 1, true,
        some (.var ⟨some [1,2], 2, 2, none⟩)⟩) 0 false
        = (ODR.DEV_INCOMPAT, none)
    ∧ OD_getSub (some ⟨0x1000, 1, false,
        some (.var ⟨some [1,2], 2, 2, none⟩)⟩) 3 false
        = (ODR.SUB_NOT_EXIST, none)
    ∧ OD_getSub (some ⟨0x1003, 2, false,
        some (.array ⟨⟨some [2], 2, 1, none⟩, some [1,2,3,4,5,6,7,8],
          2, 4, 4⟩)⟩) 2 false = (ODR.SUB_NOT_EXIST, none)
    ∧ OD_getSub (some ⟨0x1018, 1, false,
        some (.record [⟨⟨some [4], 2, 1, none⟩, 0⟩])⟩) 5 false
        = (ODR.SUB_NOT_EXIST, none)
    ∧ ((OD_getSub (some ⟨0x1001, 1, false,
        some (.var ⟨some [0], 2, 1, none⟩)⟩) 0 false).2.map
          (fun t => t.1.dataOffset)) = some 0 := by
  refine ⟨(C9_getSub_resolution 0 false).1, ?_, ?_, ?_, ?_, ?_⟩
  · exact (C9_getSub_resolution 0 false).2.2.1 _ _ rfl rfl rfl
  · exact (C9_getSub_resolution 3 false).2.2.2.1 _ _ rfl (by decide)
      (by decide)
  · exact (C9_getSub_resolution 2 false).2.2.2.2.1 _ _ rfl (by decide)
      (by decide)
  · exact (C9_getSub_resolution 5 false).2.2.2.2.2.1 _ _ rfl (by decide)
      (by decide)
  · have h := (C9_getSub_resolution 0 false).2.2.2.2.2.2
      (some ⟨0x1001, 1, false, some (.var ⟨some [0], 2, 1, none⟩)⟩)
    have heval : OD_getSub (some ⟨0x1001, 1, false,
        some (.var ⟨some [0], 2, 1, none⟩)⟩) 0 false
        = (ODR.OK, some (⟨some [0], 1, 0⟩, 2, true)) := by decide
    rw [heval]
    simp [h ODR.OK ⟨some [0], 1, 0⟩ 2 true heval]

/-- C7: the 0x1014 write handler rejects with INVALID_VALUE any value with
a reserved bit (mask 0x7FFFF800) set, and any value that would keep the
producer enabled while changing the 11-bit CAN-ID from the current
effective one; an accepted write persists the bare 0x80 when the new
CAN-ID equals 0x80 + nodeId and the new CAN-ID itself otherwise, and then
stores the word through OD_writeOriginal. -/
theorem C7_write_1014_cobid (em : CO_EM) (stream : OD_stream)
    (buf : List Nat) (count : Nat) :
    ((CO_getUint32 buf &&& 0x7FFFF800) ≠ 0 →
      OD_write_1014 em stream 0 buf count = (ODR.INVALID_VALUE, em, stream))
    ∧ (em.producerEnabled = true →
        (CO_getUint32 buf &&& 0x80000000) = 0 →
        CO_getUint32 buf &&& 0x7FF ≠ 0 →
        CO_getUint32 buf &&& 0x7FF ≠
          (if em.producerCanId = CO_CAN_ID_EMERGENCY then
            CO_CAN_ID_EMERGENCY + em.nodeId else em.producerCanId) →
        OD_write_1014 em stream 0 buf count
          = (ODR.INVALID_VALUE, em, stream))
    ∧ ((CO_getUint32 buf &&& 0x7FFFF800) = 0 →
        ¬(em.producerEnabled = true
          ∧ ((CO_getUint32 buf &&& 0x80000000) = 0
              ∧ CO_getUint32 buf &&& 0x7FF ≠ 0)
          ∧ CO_getUint32 buf &&& 0x7FF ≠
            (if em.producerCanId = CO_CAN_ID_EMERGENCY then
              CO_CAN_ID_EMERGENCY + em.nodeId else em.producerCanId)) →
        OD_write_1014 em stream 0 buf count
          = ((OD_writeOriginal stream buf count).1,
             { em with
                 producerEnabled :=
                   decide ((CO_getUint32 buf &&& 0x80000000) = 0
                     ∧ CO_getUint32 buf &&& 0x7FF ≠ 0),
                 producerCanId :=
                   if CO_getUint32 buf &&& 0x7FF
                       = CO_CAN_ID_EMERGENCY + em.nodeId then
                     CO_CAN_ID_EMERGENCY
                   else CO_getUint32 buf &&& 0x7FF },
             (OD_writeOriginal stream buf count).2)) := by
  refine ⟨fun h => ?_, fun hen hbit hnz hne => ?_, fun hres hnot => ?_⟩
  · simp [OD_write_1014, h]
  · have hcond : (CO_getUint32 buf &&& 0x7FFFF800) ≠ 0
        ∨ (em.producerEnabled = true
          ∧ ((CO_getUint32 buf &&& 0x80000000) = 0
              ∧ CO_getUint32 buf &&& 0x7FF ≠ 0)
          ∧ CO_getUint32 buf &&& 0x7FF ≠
            (if em.producerCanId = CO_CAN_ID_EMERGENCY then
              CO_CAN_ID_EMERGENCY + em.nodeId else em.producerCanId)) :=
      Or.inr ⟨hen, ⟨hbit, hnz⟩, hne⟩
    simp only [OD_write_1014, if_neg (show ¬((0 : Nat) ≠ 0) by simp),
      if_pos hcond]
  · have hcond : ¬((CO_getUint32 buf &&& 0x7FFFF800) ≠ 0
        ∨ (em.producerEnabled = true
          ∧ ((CO_getUint32 buf &&& 0x80000000) = 0
              ∧ CO_getUint32 buf &&& 0x7FF ≠ 0)
          ∧ CO_getUint32 buf &&& 0x7FF ≠
            (if em.producerCanId = CO_CAN_ID_EMERGENCY then
              CO_CAN_ID_EMERGENCY + em.nodeId else em.producerCanId))) := by
      intro hcontra
      rcases hcontra with h1 | h2
      · exact h1 hres
      · exact hnot h2
    simp only [OD_write_1014, if_neg (show ¬((0 : Nat) ≠ 0) by simp),
      if_neg hcond]

/-- Witness for C7 at spec scenario 3: nodeId 5, current producer CAN-ID
stored as bare 0x80 and enabled; writing 0x00000086 is rejected with
INVALID_VALUE; writing 0x80000086 (disable first) is accepted and persists
0x86. -/
theorem C7_write_1014_cobid_witness :
    OD_write_1014
      ⟨List.replicate 6 0, List.replicate 7 (0, 0), 0, 0, 0, 0, 0, 0,
        true, 0x80, 5⟩ ⟨some [0x80, 0, 0, 0], 4, 0⟩ 0 [0x86, 0, 0, 0] 4
      = (ODR.INVALID_VALUE,
         ⟨List.replicate 6 0, List.replicate 7 (0, 0), 0, 0, 0, 0, 0, 0,
           true, 0x80, 5⟩, ⟨some [0x80, 0, 0, 0], 4, 0⟩)
    ∧ OD_write_1014
      ⟨List.replicate 6 0, List.replicate 7 (0, 0), 0, 0, 0, 0, 0, 0,
        true, 0x80, 5⟩ ⟨some [0x80, 0, 0, 0], 4, 0⟩ 0 [0x86, 0, 0, 0x80] 4
      = ((OD_writeOriginal ⟨some [0x80, 0, 0, 0], 4, 0⟩
            [0x86, 0, 0, 0x80] 4).1,
         { (⟨List.replicate 6 0, List.replicate 7 (0, 0), 0, 0, 0, 0, 0, 0,
             true, 0x80, 5⟩ : CO_EM) with
             producerEnabled := decide
               ((CO_getUint32 [0x86, 0, 0, 0x80] &&& 0x80000000) = 0
                 ∧ CO_getUint32 [0x86, 0, 0, 0x80] &&& 0x7FF ≠ 0),
             producerCanId :=
               if CO_getUint32 [0x86, 0, 0, 0x80] &&& 0x7FF
                   = CO_CAN_ID_EMERGENCY + 5 then CO_CAN_ID_EMERGENCY
               else CO_getUint32 [0x86, 0, 0, 0x80] &&& 0x7FF },
         (OD_writeOriginal ⟨some [0x80, 0, 0, 0], 4, 0⟩
            [0x86, 0, 0, 0x80] 4).2) :=
  ⟨(C7_write_1014_cobid _ _ [0x86, 0, 0, 0] 4).2.1 rfl (by decide)
      (by decide) (by decide),
   (C7_write_1014_cobid _ _ [0x86, 0, 0, 0x80] 4).2.2 (by decide)
      (by decide)⟩

/-- C4 as stated is false: the status-bits OD entry is not read-only
towards SDO; its registered write handler OD_write_statusBits overwrites
the error status bitmap with the supplied buffer. -/
theorem C4_counterexample :
    (OD_write_statusBits ⟨48, 6, 46, 0x6180, 0, 0x1000, 47⟩
      ⟨List.replicate 6 0, List.replicate 7 (0, 0), 0, 0, 0, 0, 0, 0,
        true, 0x80, 5⟩
      ⟨none, 6, 0⟩ 0 [255, 255, 255, 255, 255, 255] 6).2.1.errorStatusBits
      = [255, 255, 255, 255, 255, 255]
    ∧ (OD_write_statusBits ⟨48, 6, 46, 0x6180, 0, 0x1000, 47⟩
      ⟨List.replicate 6 0, List.replicate 7 (0, 0), 0, 0, 0, 0, 0, 0,
        true, 0x80, 5⟩
      ⟨none, 6, 0⟩ 0 [255, 255, 255, 255, 255, 255] 6).1 = ODR.OK
    ∧ [255, 255, 255, 255, 255, 255] ≠ List.replicate 6 (0 : Nat) := by
  decide

/-- C4 amended: errorStatusBits is mutated through report_error, but also
through the status-bits OD write handler registered by CO_EM_init; an SDO
write of a full-width buffer through OD_write_statusBits is accepted with
OK and replaces the whole bitmap with the buffer contents, so the entry is
read/write towards SDO, not read-only. -/
theorem C4_statusBits_write_mutates (cfg : EMConfig) (em : CO_EM)
    (stream : OD_stream) (buf : List Nat) (count : Nat)
    (hlen : stream.dataLength = cfg.errStatusBitsCount / 8)
    (hcnt : cfg.errStatusBitsCount / 8 ≤ count)
    (hbits : em.errorStatusBits.length = cfg.errStatusBitsCount / 8)
    (hbuf : cfg.errStatusBitsCount / 8 ≤ buf.length) :
    (OD_write_statusBits cfg em stream 0 buf count).1 = ODR.OK
    ∧ (OD_write_statusBits cfg em stream 0 buf count).2.1.errorStatusBits
        = buf.take (cfg.errStatusBitsCount / 8) := by
  have h1 : ¬(cfg.errStatusBitsCount / 8 > count) := by omega
  have h2 : ¬(stream.dataLength ≠ 0
      ∧ cfg.errStatusBitsCount / 8 > stream.dataLength) := by
    rw [hlen]; omega
  simp only [OD_write_statusBits, if_neg (show ¬((0 : Nat) ≠ 0) by simp),
    if_neg h1, if_neg h2]
  refine ⟨by trivial, ?_⟩
  have hsrc : (buf.take (cfg.errStatusBitsCount / 8)).length
      = cfg.errStatusBitsCount / 8 := by
    rw [List.length_take]; omega
  simp only [writeBytes, List.take_zero, List.nil_append, hsrc,
    Nat.zero_add]
  rw [List.drop_eq_nil_of_le (by omega), List.append_nil]

/-- Witness for C4 amended: a full-width SDO write replaces the bitmap. -/
theorem C4_statusBits_write_mutates_witness :
    (OD_write_statusBits ⟨48, 6, 46, 0x6180, 0, 0x1000, 47⟩
      ⟨List.replicate 6 0, List.replicate 7 (0, 0), 0, 0, 0, 0, 0, 0,
        true, 0x80, 5⟩
      ⟨none, 6, 0⟩ 0 [1, 2, 3, 4, 5, 6] 6).1 = ODR.OK
    ∧ (OD_write_statusBits ⟨48, 6, 46, 0x6180, 0, 0x1000, 47⟩
      ⟨List.replicate 6 0, List.replicate 7 (0, 0), 0, 0, 0, 0, 0, 0,
        true, 0x80, 5⟩
      ⟨none, 6, 0⟩ 0 [1, 2, 3, 4, 5, 6] 6).2.1.errorStatusBits
        = [1, 2, 3, 4, 5, 6].take (48 / 8) :=
  C4_statusBits_write_mutates ⟨48, 6, 46, 0x6180, 0, 0x1000, 47⟩
    ⟨List.replicate 6 0, List.replicate 7 (0, 0), 0, 0, 0, 0, 0, 0,
      true, 0x80, 5⟩
    ⟨none, 6, 0⟩ [1, 2, 3, 4, 5, 6] 6 rfl (by decide) (by decide)
    (by decide)

theorem and_two_pow_ne_zero_iff (x j : Nat) :
    x &&& 2 ^ j ≠ 0 ↔ x.testBit j = true := by
  rw [Nat.and_two_pow]
  rcases h : x.testBit j <;> simp [h, (Nat.two_pow_pos j).ne.symm]

theorem emBitGet_eq_testBit (em : CO_EM) (k : Nat) :
    emBitGet em k = (em.errorStatusBits.getD (k / 8) 0).testBit (k % 8) := by
  rw [emBitGet]
  rcases h : (em.errorStatusBits.getD (k / 8) 0).testBit (k % 8)
  · simp only [decide_eq_false_iff_not, ne_eq, not_not]
    rw [Nat.and_two_pow, h]
    simp
  · simp only [decide_eq_true_eq]
    rw [and_two_pow_ne_zero_iff]
    exact h

theorem or_two_pow_testBit_self (b j : Nat) :
    (b ||| 2 ^ j).testBit j = true := by
  simp [Nat.testBit_or, Nat.testBit_two_pow_self]

theorem testBit_255_of_lt (j : Nat) (hj : j < 8) :
    Nat.testBit 255 j = true := by
  rw [(by norm_num : (255 : Nat) = 2 ^ 8 - 1),
    Nat.testBit_two_pow_sub_one]
  simp [hj]

theorem and_mask_clear_testBit_self (b j : Nat) (hj : j < 8) :
    (b &&& (255 ^^^ 2 ^ j)).testBit j = false := by
  simp [Nat.testBit_and, Nat.testBit_xor, testBit_255_of_lt j hj,
    Nat.testBit_two_pow_self]

theorem or_two_pow_testBit_other (b j j2 : Nat) (h : j2 ≠ j) :
    (b ||| 2 ^ j).testBit j2 = b.testBit j2 := by
  simp [Nat.testBit_or, Nat.testBit_two_pow_of_ne (fun hh => h hh.symm)]

theorem and_mask_clear_testBit_other (b j j2 : Nat) (hj2 : j2 < 8)
    (h : j2 ≠ j) :
    (b &&& (255 ^^^ 2 ^ j)).testBit j2 = b.testBit j2 := by
  simp [Nat.testBit_and, Nat.testBit_xor, testBit_255_of_lt j2 hj2,
    Nat.testBit_two_pow_of_ne (fun hh => h hh.symm)]

theorem CO_error_noop (cfg : EMConfig) (em : CO_EM) (setError : Bool)
    (k errorCode infoCode : Nat) (hk8 : k < 256)
    (hkw : k / 8 < cfg.errStatusBitsCount / 8)
    (hcur : emBitGet em k = setError) :
    CO_error cfg em setError k errorCode infoCode = em := by
  have hmod : k % 256 = k := Nat.mod_eq_of_lt hk8
  have hnr : ¬(cfg.errStatusBitsCount / 8 ≤ k / 8) := by omega
  rw [CO_error]
  simp only [hmod, ge_iff_le, if_neg hnr]
  rcases setError with _ | _
  · have h0 : em.errorStatusBits.getD (k / 8) 0 &&& 2 ^ (k % 8) = 0 := by
      rw [emBitGet] at hcur
      simpa using hcur
    simp only [List.getD_eq_getElem?_getD] at h0
    simp [h0]
  · have h1 : em.errorStatusBits.getD (k / 8) 0 &&& 2 ^ (k % 8) ≠ 0 := by
      rw [emBitGet] at hcur
      simpa using hcur
    simp only [List.getD_eq_getElem?_getD] at h1
    simp [h1]

theorem CO_error_edge (cfg : EMConfig) (em : CO_EM) (setError : Bool)
    (k errorCode infoCode : Nat) (hk8 : k < 256)
    (hkw : k / 8 < cfg.errStatusBitsCount / 8)
    (hcur : emBitGet em k ≠ setError) :
    CO_error cfg em setError k errorCode infoCode =
      (if (if cfg.bufferSize ≤ em.fifoWrPtr then 0 else em.fifoWrPtr + 1)
          = em.fifoPpPtr then
        { em with
            errorStatusBits := em.errorStatusBits.set (k / 8)
              (if setError then
                em.errorStatusBits.getD (k / 8) 0 ||| 2 ^ (k % 8)
              else
                em.errorStatusBits.getD (k / 8) 0 &&& (255 ^^^ 2 ^ (k % 8))),
            fifoOverflow := 1 }
      else
        { em with
            errorStatusBits := em.errorStatusBits.set (k / 8)
              (if setError then
                em.errorStatusBits.getD (k / 8) 0 ||| 2 ^ (k % 8)
              else
                em.errorStatusBits.getD (k / 8) 0 &&& (255 ^^^ 2 ^ (k % 8))),
            fifo := em.fifo.set em.fifoWrPtr
              ((k <<< 24) ||| (if setError then errorCode % 2 ^ 16
                else cfg.emcNoError % 2 ^ 16), infoCode % 2 ^ 32),
            fifoWrPtr := if cfg.bufferSize ≤ em.fifoWrPtr then 0
              else em.fifoWrPtr + 1,
            fifoCount := if em.fifoCount < cfg.bufferSize then
              em.fifoCount + 1 else em.fifoCount }) := by
  have hmod : k % 256 = k := Nat.mod_eq_of_lt hk8
  have hnr : ¬(cfg.errStatusBitsCount / 8 ≤ k / 8) := by omega
  rw [CO_error]
  simp only [hmod, ge_iff_le, if_neg hnr, CO_SWAP_16, CO_SWAP_32]
  rcases setError with _ | _
  · have h1 : em.errorStatusBits.getD (k / 8) 0 &&& 2 ^ (k % 8) ≠ 0 := by
      rw [emBitGet] at hcur
      simpa using hcur
    simp only [List.getD_eq_getElem?_getD] at h1 ⊢
    simp [h1]
  · have h0 : em.errorStatusBits.getD (k / 8) 0 &&& 2 ^ (k % 8) = 0 := by
      rw [emBitGet] at hcur
      simpa using hcur
    simp only [List.getD_eq_getElem?_getD] at h0 ⊢
    simp [h0]

theorem CO_error_errorStatusBits_edge (cfg : EMConfig) (em : CO_EM)
    (setError : Bool) (k errorCode infoCode : Nat) (hk8 : k < 256)
    (hkw : k / 8 < cfg.errStatusBitsCount / 8)
    (hcur : emBitGet em k ≠ setError) :
    (CO_error cfg em setError k errorCode infoCode).errorStatusBits =
      em.errorStatusBits.set (k / 8)
        (if setError then em.errorStatusBits.getD (k / 8) 0 ||| 2 ^ (k % 8)
         else em.errorStatusBits.getD (k / 8) 0 &&& (255 ^^^ 2 ^ (k % 8)))
      := by
  rw [CO_error_edge cfg em setError k errorCode infoCode hk8 hkw hcur]
  repeat' split
  all_goals rfl

theorem CO_error_bits_length (cfg : EMConfig) (em : CO_EM)
    (setError : Bool) (k errorCode infoCode : Nat) :
    (CO_error cfg em setError k errorCode infoCode).errorStatusBits.length
      = em.errorStatusBits.length := by
  simp only [CO_error]
  repeat' split
  all_goals simp

theorem CO_error_fifoPpPtr_eq (cfg : EMConfig) (em : CO_EM)
    (setError : Bool) (k errorCode infoCode : Nat) :
    (CO_error cfg em setError k errorCode infoCode).fifoPpPtr
      = em.fifoPpPtr := by
  simp only [CO_error]
  repeat' split
  all_goals rfl

theorem CO_error_fifo_length (cfg : EMConfig) (em : CO_EM)
    (setError : Bool) (k errorCode infoCode : Nat) :
    (CO_error cfg em setError k errorCode infoCode).fifo.length
      = em.fifo.length := by
  simp only [CO_error]
  repeat' split
  all_goals simp

theorem CO_error_bitGet_self (cfg : EMConfig) (em : CO_EM)
    (setError : Bool) (k errorCode infoCode : Nat) (hk8 : k < 256)
    (hkw : k / 8 < cfg.errStatusBitsCount / 8)
    (hlen : em.errorStatusBits.length = cfg.errStatusBitsCount / 8) :
    emBitGet (CO_error cfg em setError k errorCode infoCode) k
      = setError := by
  by_cases hc : emBitGet em k = setError
  · rw [CO_error_noop cfg em setError k errorCode infoCode hk8 hkw hc, hc]
  · have hidx : k / 8 < em.errorStatusBits.length := by omega
    rw [emBitGet_eq_testBit,
      CO_error_errorStatusBits_edge cfg em setError k errorCode infoCode
        hk8 hkw hc]
    have hgd : ∀ v, (em.errorStatusBits.set (k / 8) v).getD (k / 8) 0 = v :=
      fun v => by
        rw [List.getD_eq_getElem?_getD, List.getElem?_set_self hidx]
        rfl
    rcases setError with _ | _
    · rw [hgd]
      exact and_mask_clear_testBit_self _ (k % 8)
        (Nat.mod_lt k (by norm_num))
    · rw [hgd]
      exact or_two_pow_testBit_self _ _

theorem CO_error_bitGet_other (cfg : EMConfig) (em : CO_EM)
    (setError : Bool) (k errorCode infoCode k2 : Nat) (hk8 : k < 256)
    (hkw : k / 8 < cfg.errStatusBitsCount / 8) (hne : k2 ≠ k) :
    emBitGet (CO_error cfg em setError k errorCode infoCode) k2
      = emBitGet em k2 := by
  by_cases hc : emBitGet em k = setError
  · rw [CO_error_noop cfg em setError k errorCode infoCode hk8 hkw hc]
  · rw [emBitGet_eq_testBit, emBitGet_eq_testBit,
      CO_error_errorStatusBits_edge cfg em setError k errorCode infoCode
        hk8 hkw hc]
    by_cases hb : k2 / 8 = k / 8
    · have hj : k2 % 8 ≠ k % 8 := by omega
      by_cases hidx : k / 8 < em.errorStatusBits.length
      · have hgd : ∀ v,
            (em.errorStatusBits.set (k / 8) v).getD (k / 8) 0 = v :=
          fun v => by
            rw [List.getD_eq_getElem?_getD, List.getElem?_set_self hidx]
            rfl
        rw [hb, hgd]
        rcases setError with _ | _
        · exact and_mask_clear_testBit_other _ (k % 8) (k2 % 8)
            (Nat.mod_lt k2 (by norm_num)) hj
        · exact or_two_pow_testBit_other _ (k % 8) (k2 % 8) hj
      · rw [List.set_eq_of_length_le (by omega)]
    · have hgd : ∀ v,
          (em.errorStatusBits.set (k / 8) v).getD (k2 / 8) 0
            = em.errorStatusBits.getD (k2 / 8) 0 :=
        fun v => by
          rw [List.getD_eq_getElem?_getD, List.getElem?_set_ne
            (fun hh => hb hh.symm), ← List.getD_eq_getElem?_getD]
      rw [hgd]

theorem CO_error_enqueue (cfg : EMConfig) (em : CO_EM) (setError : Bool)
    (k errorCode infoCode : Nat) (hk8 : k < 256)
    (hkw : k / 8 < cfg.errStatusBitsCount / 8)
    (hcur : emBitGet em k ≠ setError)
    (hnotfull : (if cfg.bufferSize ≤ em.fifoWrPtr then 0
      else em.fifoWrPtr + 1) ≠ em.fifoPpPtr) :
    (CO_error cfg em setError k errorCode infoCode).fifoCount
      = (if em.fifoCount < cfg.bufferSize then em.fifoCount + 1
          else em.fifoCount)
    ∧ (CO_error cfg em setError k errorCode infoCode).fifoWrPtr
      = (if cfg.bufferSize ≤ em.fifoWrPtr then 0 else em.fifoWrPtr + 1)
    ∧ (CO_error cfg em setError k errorCode infoCode).fifoPpPtr
      = em.fifoPpPtr
    ∧ (CO_error cfg em setError k errorCode infoCode).fifo
      = em.fifo.set em.fifoWrPtr
          ((k <<< 24) ||| (if setError then errorCode % 2 ^ 16
            else cfg.emcNoError % 2 ^ 16), infoCode % 2 ^ 32)
    ∧ (CO_error cfg em setError k errorCode infoCode).fifoOverflow
      = em.fifoOverflow := by
  rw [CO_error_edge cfg em setError k errorCode infoCode hk8 hkw hcur,
    if_neg hnotfull]
  exact ⟨rfl, rfl, rfl, rfl, rfl⟩

theorem CO_error_full (cfg : EMConfig) (em : CO_EM) (setError : Bool)
    (k errorCode infoCode : Nat) (hk8 : k < 256)
    (hkw : k / 8 < cfg.errStatusBitsCount / 8)
    (hcur : emBitGet em k ≠ setError)
    (hfull : (if cfg.bufferSize ≤ em.fifoWrPtr then 0
      else em.fifoWrPtr + 1) = em.fifoPpPtr) :
    (CO_error cfg em setError k errorCode infoCode).fifo = em.fifo
    ∧ (CO_error cfg em setError k errorCode infoCode).fifoWrPtr
      = em.fifoWrPtr
    ∧ (CO_error cfg em setError k errorCode infoCode).fifoCount
      = em.fifoCount
    ∧ (CO_error cfg em setError k errorCode infoCode).fifoOverflow = 1
    ∧ (CO_error cfg em setError k errorCode infoCode).fifoPpPtr
      = em.fifoPpPtr := by
  rw [CO_error_edge cfg em setError k errorCode infoCode hk8 hkw hcur,
    if_pos hfull]
  exact ⟨rfl, rfl, rfl, rfl, rfl⟩

theorem CO_error_fifoCount_le (cfg : EMConfig) (em : CO_EM)
    (setError : Bool) (k errorCode infoCode : Nat)
    (h : em.fifoCount ≤ cfg.bufferSize) :
    (CO_error cfg em setError k errorCode infoCode).fifoCount
      ≤ cfg.bufferSize := by
  simp only [CO_error]
  repeat' split
  all_goals simp_all
  all_goals omega

/-- Iterated CO_error calls on one error bit: each element carries the
setError flag, errorCode and infoCode of one call. -/
def runErrors (cfg : EMConfig) (em : CO_EM) (k : Nat) :
    List (Bool × Nat × Nat) → CO_EM
  | [] => em
  | c :: cs => runErrors cfg (CO_error cfg em c.1 k c.2.1 c.2.2) k cs

/-- Number of state changes (edges) a call sequence on bit k produces:
calls whose setError argument differs from the bit state at call time. -/
def edgeCount (cfg : EMConfig) (em : CO_EM) (k : Nat) :
    List (Bool × Nat × Nat) → Nat
  | [] => 0
  | c :: cs => (if c.1 = emBitGet em k then 0 else 1)
      + edgeCount cfg (CO_error cfg em c.1 k c.2.1 c.2.2) k cs

theorem runErrors_bits_length (cfg : EMConfig) (k : Nat) :
    ∀ (calls : List (Bool × Nat × Nat)) (em : CO_EM),
      (runErrors cfg em k calls).errorStatusBits.length
        = em.errorStatusBits.length := by
  intro calls
  induction calls with
  | nil => intro em; rfl
  | cons c cs ih =>
    intro em
    rw [runErrors, ih, CO_error_bits_length]

theorem runErrors_last_set (cfg : EMConfig) (k : Nat) (hk8 : k < 256)
    (hkw : k / 8 < cfg.errStatusBitsCount / 8) :
    ∀ (calls : List (Bool × Nat × Nat)) (last : Bool × Nat × Nat)
      (em : CO_EM),
      em.errorStatusBits.length = cfg.errStatusBitsCount / 8 →
      emBitGet (runErrors cfg em k (calls ++ [last])) k = last.1 := by
  intro calls
  induction calls with
  | nil =>
    intro last em hlen
    rw [List.nil_append, runErrors, runErrors]
    exact CO_error_bitGet_self cfg em last.1 k last.2.1 last.2.2 hk8 hkw
      hlen
  | cons c cs ih =>
    intro last em hlen
    rw [List.cons_append, runErrors]
    exact ih last _ (by rw [CO_error_bits_length]; exact hlen)

theorem runErrors_count (cfg : EMConfig) (k : Nat) (hk8 : k < 256)
    (hkw : k / 8 < cfg.errStatusBitsCount / 8) :
    ∀ (calls : List (Bool × Nat × Nat)) (em : CO_EM),
      em.errorStatusBits.length = cfg.errStatusBitsCount / 8 →
      em.fifoPpPtr = 0 → em.fifoWrPtr = em.fifoCount →
      em.fifoCount + edgeCount cfg em k calls ≤ cfg.bufferSize →
      (runErrors cfg em k calls).fifoCount
        = em.fifoCount + edgeCount cfg em k calls := by
  intro calls
  induction calls with
  | nil =>
    intro em _ _ _ _
    simp [runErrors, edgeCount]
  | cons c cs ih =>
    intro em hlen hpp hwc hbound
    rw [edgeCount] at hbound
    by_cases hc : c.1 = emBitGet em k
    · have hnoop : CO_error cfg em c.1 k c.2.1 c.2.2 = em :=
        CO_error_noop cfg em c.1 k c.2.1 c.2.2 hk8 hkw hc.symm
      rw [if_pos hc, hnoop] at hbound
      rw [runErrors, edgeCount, if_pos hc, hnoop]
      rw [ih em hlen hpp hwc (by omega)]
      omega
    · have hcur : emBitGet em k ≠ c.1 := fun hh => hc hh.symm
      rw [if_neg hc] at hbound
      have hlt : em.fifoCount < cfg.bufferSize := by omega
      have hnf : (if cfg.bufferSize ≤ em.fifoWrPtr then 0
          else em.fifoWrPtr + 1) ≠ em.fifoPpPtr := by
        rw [hpp, hwc, if_neg (by omega)]
        omega
      obtain ⟨hcnt, hwr, hpp2, hfifo, hovf⟩ :=
        CO_error_enqueue cfg em c.1 k c.2.1 c.2.2 hk8 hkw hcur hnf
      have hlen1 : (CO_error cfg em c.1 k c.2.1 c.2.2).errorStatusBits.length
          = cfg.errStatusBitsCount / 8 := by
        rw [CO_error_bits_length]; exact hlen
      have hpp1 : (CO_error cfg em c.1 k c.2.1 c.2.2).fifoPpPtr = 0 := by
        rw [hpp2, hpp]
      have hwc1 : (CO_error cfg em c.1 k c.2.1 c.2.2).fifoWrPtr
          = (CO_error cfg em c.1 k c.2.1 c.2.2).fifoCount := by
        rw [hwr, hcnt, if_neg (show ¬ cfg.bufferSize ≤ em.fifoWrPtr by
          omega), if_pos hlt]
        omega
      have hbound1 : (CO_error cfg em c.1 k c.2.1 c.2.2).fifoCount
          + edgeCount cfg (CO_error cfg em c.1 k c.2.1 c.2.2) k cs
          ≤ cfg.bufferSize := by
        rw [hcnt, if_pos hlt]
        omega
      rw [runErrors, edgeCount, if_neg hc]
      rw [ih (CO_error cfg em c.1 k c.2.1 c.2.2) hlen1 hpp1 hwc1 hbound1,
        hcnt, if_pos hlt]
      omega

/-- C2 as stated is false once the ring fills: with CAP = 1 (a legal
configuration), two edges on bit 0 starting from an empty FIFO enqueue
only one entry; the second edge is dropped with overflow = 1, so the
number of enqueued FIFO entries (1) differs from the number of state
changes (2). -/
theorem C2_counterexample :
    edgeCount ⟨48, 1, 46, 0x6180, 0, 0x1000, 47⟩
      ⟨List.replicate 6 0, List.replicate 2 (0, 0), 0, 0, 0, 0, 0, 0,
        true, 0x80, 5⟩ 0 [(true, 0x1000, 7), (false, 0, 0)] = 2
    ∧ (runErrors ⟨48, 1, 46, 0x6180, 0, 0x1000, 47⟩
      ⟨List.replicate 6 0, List.replicate 2 (0, 0), 0, 0, 0, 0, 0, 0,
        true, 0x80, 5⟩ 0 [(true, 0x1000, 7), (false, 0, 0)]).fifoCount = 1
    ∧ (runErrors ⟨48, 1, 46, 0x6180, 0, 0x1000, 47⟩
      ⟨List.replicate 6 0, List.replicate 2 (0, 0), 0, 0, 0, 0, 0, 0,
        true, 0x80, 5⟩ 0 [(true, 0x1000, 7), (false, 0, 0)]).fifoWrPtr = 1
    ∧ (runErrors ⟨48, 1, 46, 0x6180, 0, 0x1000, 47⟩
      ⟨List.replicate 6 0, List.replicate 2 (0, 0), 0, 0, 0, 0, 0, 0,
        true, 0x80, 5⟩ 0
        [(true, 0x1000, 7), (false, 0, 0)]).fifoOverflow = 1 := by
  decide

/-- C2 amended: over any call sequence on one in-range bit, the bitmap bit
afterwards equals the last setError argument, and a call whose setError
argument equals the current bit state is a complete no-op; the number of
enqueued FIFO entries equals the number of edges provided the ring never
fills, in particular whenever the sequence starts from an empty FIFO and
produces at most CAP edges (an edge meeting a full ring is dropped and
only sets the overflow flag, see C6). -/
theorem C2_report_error_same_bit (cfg : EMConfig) (em : CO_EM) (k : Nat)
    (calls : List (Bool × Nat × Nat)) (last : Bool × Nat × Nat)
    (hdvd : 8 ∣ cfg.errStatusBitsCount) (hk : k < cfg.errStatusBitsCount)
    (h256 : cfg.errStatusBitsCount ≤ 256)
    (hlen : em.errorStatusBits.length = cfg.errStatusBitsCount / 8) :
    (emBitGet (runErrors cfg em k (calls ++ [last])) k = last.1)
    ∧ (∀ setError errorCode infoCode, emBitGet em k = setError →
        CO_error cfg em setError k errorCode infoCode = em)
    ∧ (em.fifoPpPtr = 0 → em.fifoWrPtr = 0 → em.fifoCount = 0 →
        edgeCount cfg em k calls ≤ cfg.bufferSize →
        (runErrors cfg em k calls).fifoCount
          = edgeCount cfg em k calls) := by
  have hk8 : k < 256 := by omega
  have hkw : k / 8 < cfg.errStatusBitsCount / 8 :=
    Nat.div_lt_div_of_lt_of_dvd hdvd hk
  refine ⟨runErrors_last_set cfg k hk8 hkw calls last em hlen,
    fun setError errorCode infoCode hcur =>
      CO_error_noop cfg em setError k errorCode infoCode hk8 hkw hcur,
    fun hpp hwr hcnt hbound => ?_⟩
  have h := runErrors_count cfg k hk8 hkw calls em hlen hpp
    (by rw [hwr, hcnt]) (by omega)
  rw [h, hcnt]
  omega

/-- Witness for C2 amended: raise, duplicate raise (no-op), clear on
bit 3, CAP 6: final bit clear, two edges enqueued. -/
theorem C2_report_error_same_bit_witness :
    emBitGet (runErrors ⟨48, 6, 46, 0x6180, 0, 0x1000, 47⟩
      ⟨List.replicate 6 0, List.replicate 7 (0, 0), 0, 0, 0, 0, 0, 0,
        true, 0x80, 5⟩ 3
      ([(true, 0x1000, 7), (true, 0x2000, 8)] ++ [(false, 0, 0)])) 3 = false
    ∧ (runErrors ⟨48, 6, 46, 0x6180, 0, 0x1000, 47⟩
      ⟨List.replicate 6 0, List.replicate 7 (0, 0), 0, 0, 0, 0, 0, 0,
        true, 0x80, 5⟩ 3
      [(true, 0x1000, 7), (true, 0x2000, 8)]).fifoCount
        = edgeCount ⟨48, 6, 46, 0x6180, 0, 0x1000, 47⟩
          ⟨List.replicate 6 0, List.replicate 7 (0, 0), 0, 0, 0, 0, 0, 0,
            true, 0x80, 5⟩ 3 [(true, 0x1000, 7), (true, 0x2000, 8)] :=
  ⟨(C2_report_error_same_bit ⟨48, 6, 46, 0x6180, 0, 0x1000, 47⟩
      ⟨List.replicate 6 0, List.replicate 7 (0, 0), 0, 0, 0, 0, 0, 0,
        true, 0x80, 5⟩ 3 [(true, 0x1000, 7), (true, 0x2000, 8)]
      (false, 0, 0) (by decide) (by decide) (by decide) (by decide)).1,
   (C2_report_error_same_bit ⟨48, 6, 46, 0x6180, 0, 0x1000, 47⟩
      ⟨List.replicate 6 0, List.replicate 7 (0, 0), 0, 0, 0, 0, 0, 0,
        true, 0x80, 5⟩ 3 [(true, 0x1000, 7), (true, 0x2000, 8)]
      (false, 0, 0) (by decide) (by decide) (by decide)
      (by decide)).2.2 rfl rfl rfl (by decide)⟩

/-- Iterated raising CO_error calls, one per element (bit, errorCode,
infoCode), each with setError true. -/
def raiseAll (cfg : EMConfig) (em : CO_EM) : List (Nat × Nat × Nat) → CO_EM
  | [] => em
  | t :: ts => raiseAll cfg (CO_error cfg em true t.1 t.2.1 t.2.2) ts

theorem raiseAll_count (cfg : EMConfig) :
    ∀ (ts : List (Nat × Nat × Nat)) (em : CO_EM),
      (∀ t ∈ ts, t.1 < 256 ∧ t.1 / 8 < cfg.errStatusBitsCount / 8) →
      (∀ t ∈ ts, emBitGet em t.1 = false) →
      ts.Pairwise (fun a b => a.1 ≠ b.1) →
      em.errorStatusBits.length = cfg.errStatusBitsCount / 8 →
      em.fifoPpPtr = 0 → em.fifoWrPtr = em.fifoCount →
      em.fifoCount + ts.length ≤ cfg.bufferSize →
      (raiseAll cfg em ts).fifoCount = em.fifoCount + ts.length := by
  intro ts
  induction ts with
  | nil =>
    intro em _ _ _ _ _ _ _
    simp [raiseAll]
  | cons t ts ih =>
    intro em hvalid hclear hpair hlen hpp hwc hbound
    obtain ⟨ht8, htw⟩ := hvalid t (by simp)
    have hcur : emBitGet em t.1 ≠ true := by
      rw [hclear t (by simp)]
      simp
    have hlt : em.fifoCount < cfg.bufferSize := by
      simp only [List.length_cons] at hbound
      omega
    have hnf : (if cfg.bufferSize ≤ em.fifoWrPtr then 0
        else em.fifoWrPtr + 1) ≠ em.fifoPpPtr := by
      rw [hpp, hwc, if_neg (by omega)]
      omega
    obtain ⟨hcnt, hwr, hpp2, hfifo, hovf⟩ :=
      CO_error_enqueue cfg em true t.1 t.2.1 t.2.2 ht8 htw hcur hnf
    have hpairtail := (List.pairwise_cons.mp hpair).2
    have hhead := (List.pairwise_cons.mp hpair).1
    rw [raiseAll]
    rw [ih (CO_error cfg em true t.1 t.2.1 t.2.2)
      (fun u hu => hvalid u (by simp [hu]))
      (fun u hu => by
        rw [CO_error_bitGet_other cfg em true t.1 t.2.1 t.2.2 u.1 ht8 htw
          (fun hh => hhead u hu hh.symm)]
        exact hclear u (by simp [hu]))
      hpairtail
      (by rw [CO_error_bits_length]; exact hlen)
      (by rw [hpp2, hpp])
      (by rw [hwr, hcnt, if_neg (show ¬ cfg.bufferSize ≤ em.fifoWrPtr by
          omega), if_pos hlt]
          omega)
      (by rw [hcnt, if_pos hlt]
          simp only [List.length_cons] at hbound
          omega)]
    rw [hcnt, if_pos hlt]
    simp only [List.length_cons]
    omega

/-- C6: from an empty FIFO with no draining, n distinct edges (raises of n
pairwise distinct, in-range, currently clear bits) with n at most CAP
leave fifoCount = n; an edge arriving when the ring is full (the slot
after fifoWrPtr equals fifoPpPtr) sets fifoOverflow = 1 and leaves the
fifo contents, fifoWrPtr and fifoCount unchanged; and fifoCount never
exceeds CAP under any further CO_error call. -/
theorem C6_fifo_bounds (cfg : EMConfig) (em : CO_EM)
    (ts : List (Nat × Nat × Nat)) :
    ((∀ t ∈ ts, t.1 < 256 ∧ t.1 / 8 < cfg.errStatusBitsCount / 8) →
      (∀ t ∈ ts, emBitGet em t.1 = false) →
      ts.Pairwise (fun a b => a.1 ≠ b.1) →
      em.errorStatusBits.length = cfg.errStatusBitsCount / 8 →
      em.fifoPpPtr = 0 → em.fifoWrPtr = 0 → em.fifoCount = 0 →
      ts.length ≤ cfg.bufferSize →
      (raiseAll cfg em ts).fifoCount = ts.length)
    ∧ (∀ setError k errorCode infoCode, k < 256 →
        k / 8 < cfg.errStatusBitsCount / 8 →
        emBitGet em k ≠ setError →
        (if cfg.bufferSize ≤ em.fifoWrPtr then 0 else em.fifoWrPtr + 1)
          = em.fifoPpPtr →
        (CO_error cfg em setError k errorCode infoCode).fifo = em.fifo
        ∧ (CO_error cfg em setError k errorCode infoCode).fifoWrPtr
          = em.fifoWrPtr
        ∧ (CO_error cfg em setError k errorCode infoCode).fifoCount
          = em.fifoCount
        ∧ (CO_error cfg em setError k errorCode infoCode).fifoOverflow = 1)
    ∧ (∀ setError k errorCode infoCode, em.fifoCount ≤ cfg.bufferSize →
        (CO_error cfg em setError k errorCode infoCode).fifoCount
          ≤ cfg.bufferSize) := by
  refine ⟨fun hvalid hclear hpair hlen hpp hwr hcnt hbound => ?_,
    fun setError k errorCode infoCode hk8 hkw hcur hfull => ?_,
    fun setError k errorCode infoCode h =>
      CO_error_fifoCount_le cfg em setError k errorCode infoCode h⟩
  · have h := raiseAll_count cfg ts em hvalid hclear hpair hlen hpp
      (by rw [hwr, hcnt]) (by omega)
    rw [h, hcnt]
    omega
  · obtain ⟨h1, h2, h3, h4, h5⟩ :=
      CO_error_full cfg em setError k errorCode infoCode hk8 hkw hcur hfull
    exact ⟨h1, h2, h3, h4⟩

/-- Witness for C6: CAP 2, raise bits 0 and 1 from empty (count 2), then a
raise of bit 2 meets the full ring: overflow set, fifo unchanged; and a
further call keeps the count at most CAP. -/
theorem C6_fifo_bounds_witness :
    (raiseAll ⟨48, 2, 46, 0x6180, 0, 0x1000, 47⟩
      ⟨List.replicate 6 0, List.replicate 3 (0, 0), 0, 0, 0, 0, 0, 0,
        true, 0x80, 5⟩
      [(0, 0x1000, 7), (1, 0x2000, 8)]).fifoCount = 2
    ∧ ((CO_error ⟨48, 2, 46, 0x6180, 0, 0x1000, 47⟩
      (raiseAll ⟨48, 2, 46, 0x6180, 0, 0x1000, 47⟩
        ⟨List.replicate 6 0, List.replicate 3 (0, 0), 0, 0, 0, 0, 0, 0,
          true, 0x80, 5⟩
        [(0, 0x1000, 7), (1, 0x2000, 8)]) true 2 0x3000 9).fifo
        = (raiseAll ⟨48, 2, 46, 0x6180, 0, 0x1000, 47⟩
          ⟨List.replicate 6 0, List.replicate 3 (0, 0), 0, 0, 0, 0, 0, 0,
            true, 0x80, 5⟩ [(0, 0x1000, 7), (1, 0x2000, 8)]).fifo
      ∧ (CO_error ⟨48, 2, 46, 0x6180, 0, 0x1000, 47⟩
        (raiseAll ⟨48, 2, 46, 0x6180, 0, 0x1000, 47⟩
          ⟨List.replicate 6 0, List.replicate 3 (0, 0), 0, 0, 0, 0, 0, 0,
            true, 0x80, 5⟩
          [(0, 0x1000, 7), (1, 0x2000, 8)]) true 2 0x3000 9).fifoWrPtr
        = (raiseAll ⟨48, 2, 46, 0x6180, 0, 0x1000, 47⟩
          ⟨List.replicate 6 0, List.replicate 3 (0, 0), 0, 0, 0, 0, 0, 0,
            true, 0x80, 5⟩ [(0, 0x1000, 7), (1, 0x2000, 8)]).fifoWrPtr
      ∧ (CO_error ⟨48, 2, 46, 0x6180, 0, 0x1000, 47⟩
        (raiseAll ⟨48, 2, 46, 0x6180, 0, 0x1000, 47⟩
          ⟨List.replicate 6 0, List.replicate 3 (0, 0), 0, 0, 0, 0, 0, 0,
            true, 0x80, 5⟩
          [(0, 0x1000, 7), (1, 0x2000, 8)]) true 2 0x3000 9).fifoCount
        = (raiseAll ⟨48, 2, 46, 0x6180, 0, 0x1000, 47⟩
          ⟨List.replicate 6 0, List.replicate 3 (0, 0), 0, 0, 0, 0, 0, 0,
            true, 0x80, 5⟩ [(0, 0x1000, 7), (1, 0x2000, 8)]).fifoCount
      ∧ (CO_error ⟨48, 2, 46, 0x6180, 0, 0x1000, 47⟩
        (raiseAll ⟨48, 2, 46, 0x6180, 0, 0x1000, 47⟩
          ⟨List.replicate 6 0, List.replicate 3 (0, 0), 0, 0, 0, 0, 0, 0,
            true, 0x80, 5⟩
          [(0, 0x1000, 7), (1, 0x2000, 8)]) true 2 0x3000 9).fifoOverflow
        = 1)
    ∧ (CO_error ⟨48, 2, 46, 0x6180, 0, 0x1000, 47⟩
      ⟨List.replicate 6 0, List.replicate 3 (0, 0), 0, 0, 2, 0, 0, 0,
        true, 0x80, 5⟩ true 4 0x4000 11).fifoCount ≤ 2 :=
  ⟨(C6_fifo_bounds ⟨48, 2, 46, 0x6180, 0, 0x1000, 47⟩
      ⟨List.replicate 6 0, List.replicate 3 (0, 0), 0, 0, 0, 0, 0, 0,
        true, 0x80, 5⟩ [(0, 0x1000, 7), (1, 0x2000, 8)]).1
      (by decide) (by decide) (by decide) (by decide) rfl rfl rfl
      (by decide),
   (C6_fifo_bounds ⟨48, 2, 46, 0x6180, 0, 0x1000, 47⟩
      (raiseAll ⟨48, 2, 46, 0x6180, 0, 0x1000, 47⟩
        ⟨List.replicate 6 0, List.replicate 3 (0, 0), 0, 0, 0, 0, 0, 0,
          true, 0x80, 5⟩ [(0, 0x1000, 7), (1, 0x2000, 8)]) []).2.1
      true 2 0x3000 9 (by decide) (by decide) (by decide) (by decide),
   (C6_fifo_bounds ⟨48, 2, 46, 0x6180, 0, 0x1000, 47⟩
      ⟨List.replicate 6 0, List.replicate 3 (0, 0), 0, 0, 2, 0, 0, 0,
        true, 0x80, 5⟩ []).2.2 true 4 0x4000 11 (by decide)⟩

theorem CO_error_timing_eq (cfg : EMConfig) (em : CO_EM) (setError : Bool)
    (k errorCode infoCode : Nat) :
    (CO_error cfg em setError k errorCode infoCode).inhibitEmTime_us
      = em.inhibitEmTime_us
    ∧ (CO_error cfg em setError k errorCode infoCode).inhibitEmTimer
      = em.inhibitEmTimer := by
  simp only [CO_error]
  repeat' split
  all_goals exact ⟨rfl, rfl⟩

theorem errMsg_or_eq (k C R : Nat) (hC : C < 2 ^ 16)
    (hR : R < 256) :
    ((k <<< 24) ||| C) ||| (R <<< 16) = C + R * 2 ^ 16 + k * 2 ^ 24 := by
  have e16 : (2 : Nat) ^ 16 = 65536 := by norm_num
  have e24 : (2 : Nat) ^ 24 = 16777216 := by norm_num
  have h1 : (2 : Nat) ^ 16 * R + C = 2 ^ 16 * R ||| C :=
    Nat.mul_add_lt_is_or hC R
  have h2 : (2 : Nat) ^ 16 * R + C < 2 ^ 24 := by
    rw [e16, e24]
    omega
  have h3 : (2 : Nat) ^ 24 * k + (2 ^ 16 * R + C)
      = 2 ^ 24 * k ||| (2 ^ 16 * R + C) := Nat.mul_add_lt_is_or h2 k
  rw [Nat.shiftLeft_eq, Nat.shiftLeft_eq, Nat.or_assoc,
    Nat.or_comm C (R * 2 ^ 16), Nat.mul_comm k (2 ^ 24),
    Nat.mul_comm R (2 ^ 16), ← h1, ← h3]
  ring

/-- C5: on a currently clear in-range bit k, report_error with setError
true, errorCode C and infoCode I from a quiescent producer state (empty
fifo, valid pointers), followed by CO_EM_process with NMT pre-operational
or operational, elapsed inhibit time, free transmit buffer and error
register byte R, requests transmission of exactly the 8-byte frame whose
little-endian layout is le16(0) = C, byte(2) = R, byte(3) = k,
le32(4) = I. -/
theorem C5_roundtrip_emcy_frame (cfg : EMConfig) (em : CO_EM)
    (k C I R timeDiff : Nat)
    (hdvd : 8 ∣ cfg.errStatusBitsCount) (hk : k < cfg.errStatusBitsCount)
    (h256 : cfg.errStatusBitsCount ≤ 256)
    (hlen : em.errorStatusBits.length = cfg.errStatusBitsCount / 8)
    (hclear : emBitGet em k = false)
    (hC : C < 2 ^ 16) (hI : I < 2 ^ 32) (hR : R < 256)
    (hcap : 1 ≤ cfg.bufferSize)
    (hfifolen : em.fifo.length = cfg.bufferSize + 1)
    (hempty : em.fifoWrPtr = em.fifoPpPtr)
    (hwrle : em.fifoWrPtr ≤ cfg.bufferSize)
    (_henabled : em.producerEnabled = true)
    (hinh : em.inhibitEmTime_us ≤ em.inhibitEmTimer + timeDiff) :
    (CO_EM_process cfg (CO_error cfg em true k C I) true timeDiff R
        false).2
      = some (bytesOfUInt32LE (C + R * 2 ^ 16 + k * 2 ^ 24)
          ++ bytesOfUInt32LE I)
    ∧ (bytesOfUInt32LE (C + R * 2 ^ 16 + k * 2 ^ 24)
        ++ bytesOfUInt32LE I).getD 0 0
      + 256 * (bytesOfUInt32LE (C + R * 2 ^ 16 + k * 2 ^ 24)
        ++ bytesOfUInt32LE I).getD 1 0 = C
    ∧ (bytesOfUInt32LE (C + R * 2 ^ 16 + k * 2 ^ 24)
        ++ bytesOfUInt32LE I).getD 2 0 = R
    ∧ (bytesOfUInt32LE (C + R * 2 ^ 16 + k * 2 ^ 24)
        ++ bytesOfUInt32LE I).getD 3 0 = k
    ∧ (bytesOfUInt32LE (C + R * 2 ^ 16 + k * 2 ^ 24)
        ++ bytesOfUInt32LE I).getD 4 0
      + 256 * (bytesOfUInt32LE (C + R * 2 ^ 16 + k * 2 ^ 24)
        ++ bytesOfUInt32LE I).getD 5 0
      + 2 ^ 16 * (bytesOfUInt32LE (C + R * 2 ^ 16 + k * 2 ^ 24)
        ++ bytesOfUInt32LE I).getD 6 0
      + 2 ^ 24 * (bytesOfUInt32LE (C + R * 2 ^ 16 + k * 2 ^ 24)
        ++ bytesOfUInt32LE I).getD 7 0 = I := by
  have e16 : (2 : Nat) ^ 16 = 65536 := by norm_num
  have e24 : (2 : Nat) ^ 24 = 16777216 := by norm_num
  have e32 : (2 : Nat) ^ 32 = 4294967296 := by norm_num
  have hk8 : k < 256 := by omega
  have hkw : k / 8 < cfg.errStatusBitsCount / 8 :=
    Nat.div_lt_div_of_lt_of_dvd hdvd hk
  have hcur : emBitGet em k ≠ true := by rw [hclear]; simp
  have hnf : (if cfg.bufferSize ≤ em.fifoWrPtr then 0
      else em.fifoWrPtr + 1) ≠ em.fifoPpPtr := by
    rw [← hempty]
    by_cases hcase : cfg.bufferSize ≤ em.fifoWrPtr
    · rw [if_pos hcase]
      omega
    · rw [if_neg hcase]
      omega
  obtain ⟨hcnt, hwr, hpp2, hfifo, hovf⟩ :=
    CO_error_enqueue cfg em true k C I hk8 hkw hcur hnf
  obtain ⟨htime, htimer⟩ := CO_error_timing_eq cfg em true k C I
  have hne : (CO_error cfg em true k C I).fifoPpPtr
      ≠ (CO_error cfg em true k C I).fifoWrPtr := by
    rw [hpp2, hwr]
    exact fun hh => hnf hh.symm
  have hidx : em.fifoWrPtr < em.fifo.length := by omega
  have hslot : (CO_error cfg em true k C I).fifo.getD
      (CO_error cfg em true k C I).fifoPpPtr (0, 0)
      = ((k <<< 24) ||| C % 2 ^ 16, I % 2 ^ 32) := by
    rw [hfifo, hpp2, ← hempty, List.getD_eq_getElem?_getD,
      List.getElem?_set_self hidx]
    simp
  have hmsg : ((k <<< 24) ||| C % 2 ^ 16) ||| (R % 256) <<< 16
      = C + R * 2 ^ 16 + k * 2 ^ 24 := by
    rw [Nat.mod_eq_of_lt hC, Nat.mod_eq_of_lt hR]
    exact errMsg_or_eq k C R hC hR
  have htimerge : (if (CO_error cfg em true k C I).inhibitEmTimer
      < (CO_error cfg em true k C I).inhibitEmTime_us then
        (CO_error cfg em true k C I).inhibitEmTimer + timeDiff
      else (CO_error cfg em true k C I).inhibitEmTimer)
      ≥ (CO_error cfg em true k C I).inhibitEmTime_us := by
    rw [htimer, htime]
    by_cases hcase : em.inhibitEmTimer < em.inhibitEmTime_us
    · rw [if_pos hcase]
      omega
    · rw [if_neg hcase]
      omega
  refine ⟨?_, ?_, ?_, ?_, ?_⟩
  · simp only [CO_EM_process]
    rw [if_pos ⟨hne, htimerge, by simp⟩]
    simp only [hslot]
    rw [hmsg]
    rw [Nat.mod_eq_of_lt (e32 ▸ hI)]
    simp
  · simp only [bytesOfUInt32LE, List.getD_eq_getElem?_getD]
    simp only [List.append_assoc, List.cons_append, List.nil_append]
    simp only [List.getElem?_cons_zero, List.getElem?_cons_succ,
      Option.getD_some]
    rw [e16, e24]
    omega
  · simp only [bytesOfUInt32LE, List.getD_eq_getElem?_getD]
    simp only [List.append_assoc, List.cons_append, List.nil_append]
    simp only [List.getElem?_cons_zero, List.getElem?_cons_succ,
      Option.getD_some]
    rw [e16, e24]
    omega
  · simp only [bytesOfUInt32LE, List.getD_eq_getElem?_getD]
    simp only [List.append_assoc, List.cons_append, List.nil_append]
    simp only [List.getElem?_cons_zero, List.getElem?_cons_succ,
      Option.getD_some]
    rw [e16, e24]
    omega
  · simp only [bytesOfUInt32LE, List.getD_eq_getElem?_getD]
    simp only [List.append_assoc, List.cons_append, List.nil_append]
    simp only [List.getElem?_cons_zero, List.getElem?_cons_succ,
      Option.getD_some]
    rw [e16, e24, e32] at *
    omega

/-- Witness for C5 at spec scenario 4: bit 0x11, code 0x5000, info
0xDEADBEEF, register byte 1, CAP 6, inhibit 0. -/
theorem C5_roundtrip_emcy_frame_witness :
    (CO_EM_process ⟨48, 6, 46, 0x6180, 0, 0x1000, 47⟩
        (CO_error ⟨48, 6, 46, 0x6180, 0, 0x1000, 47⟩
          ⟨List.replicate 6 0, List.replicate 7 (0, 0), 0, 0, 0, 0, 0, 0,
            true, 0x80, 5⟩ true 0x11 0x5000 0xDEADBEEF)
        true 0 1 false).2
      = some (bytesOfUInt32LE (0x5000 + 1 * 2 ^ 16 + 0x11 * 2 ^ 24)
          ++ bytesOfUInt32LE 0xDEADBEEF)
    ∧ (bytesOfUInt32LE (0x5000 + 1 * 2 ^ 16 + 0x11 * 2 ^ 24)
        ++ bytesOfUInt32LE 0xDEADBEEF).getD 0 0
      + 256 * (bytesOfUInt32LE (0x5000 + 1 * 2 ^ 16 + 0x11 * 2 ^ 24)
        ++ bytesOfUInt32LE 0xDEADBEEF).getD 1 0 = 0x5000
    ∧ (bytesOfUInt32LE (0x5000 + 1 * 2 ^ 16 + 0x11 * 2 ^ 24)
        ++ bytesOfUInt32LE 0xDEADBEEF).getD 2 0 = 1
    ∧ (bytesOfUInt32LE (0x5000 + 1 * 2 ^ 16 + 0x11 * 2 ^ 24)
        ++ bytesOfUInt32LE 0xDEADBEEF).getD 3 0 = 0x11
    ∧ (bytesOfUInt32LE (0x5000 + 1 * 2 ^ 16 + 0x11 * 2 ^ 24)
        ++ bytesOfUInt32LE 0xDEADBEEF).getD 4 0
      + 256 * (bytesOfUInt32LE (0x5000 + 1 * 2 ^ 16 + 0x11 * 2 ^ 24)
        ++ bytesOfUInt32LE 0xDEADBEEF).getD 5 0
      + 2 ^ 16 * (bytesOfUInt32LE (0x5000 + 1 * 2 ^ 16 + 0x11 * 2 ^ 24)
        ++ bytesOfUInt32LE 0xDEADBEEF).getD 6 0
      + 2 ^ 24 * (bytesOfUInt32LE (0x5000 + 1 * 2 ^ 16 + 0x11 * 2 ^ 24)
        ++ bytesOfUInt32LE 0xDEADBEEF).getD 7 0 = 0xDEADBEEF :=
  C5_roundtrip_emcy_frame ⟨48, 6, 46, 0x6180, 0, 0x1000, 47⟩
    ⟨List.replicate 6 0, List.replicate 7 (0, 0), 0, 0, 0, 0, 0, 0,
      true, 0x80, 5⟩ 0x11 0x5000 0xDEADBEEF 1 0 (by decide) (by decide)
    (by decide) (by decide) (by decide) (by decide) (by decide)
    (by decide) (by decide) (by decide) rfl (by decide) rfl (by decide)
